import Mathlib

/-!
Shallow embedding of the gba-rs ARM7TDMI CPU core: the Thumb decoder and
executor of src/cpu/thumb.rs together with the cycle dispatcher of
src/cpu/mod.rs.  Helper functions that live in the repository's bit_util,
util and reg modules (declared by the source but not present under src/)
are modelled from the specification; each such definition says so in its
doc comment.  Machine integers are Nat with explicit reduction mod 2^32
(u32), 2^16 (u16) or 2^8 (u8) where the Rust types impose it.
-/

/-- u32 wrap: reduce a Nat to the u32 range, as Rust wrapping arithmetic does. -/
def w32 (n : Nat) : Nat := n % 4294967296

/-- u32 wrapping subtraction a.wrapping_sub(b). -/
def wsub (a b : Nat) : Nat := (a + (4294967296 - b % 4294967296)) % 4294967296

/-- Modelled from the spec: bit_util::bit, the n-th bit of x as 0 or 1. -/
def bit (x n : Nat) : Nat := (x >>> n) % 2

/-- Modelled from the spec: bit_util::extract, the len-bit field of x at offset off. -/
def extract (x off len : Nat) : Nat := (x >>> off) % (2 ^ len)

/-- Modelled from the spec: bit_util::is_neg, the sign bit (bit 31) of a u32. -/
def is_neg (x : Nat) : Bool := bit x 31 == 1

/-- Modelled from the spec §4.2: the match predicate, (word & mask) == test. -/
def mask_match (inst mask test : Nat) : Bool := (inst &&& mask) == test

/-- Modelled from the spec §3: bit_util::build_flags packs the V, C, Z, N bits
into a nibble whose most significant bit is N (CPSR bit 31 after insertion at
offset 28). -/
def build_flags (v c z n : Nat) : Nat := n * 8 + z * 4 + c * 2 + v

/-- Modelled from the spec: bit_util::set replaces the len-bit field of x at
offset off with v (named set_bits here; the bare source name collides with a
core library function). -/
def set_bits (x off len v : Nat) : Nat :=
  x % 2 ^ off + 2 ^ off * (v % 2 ^ len + 2 ^ len * (x / 2 ^ (off + len)))

/-- The set_flags update of src/cpu/thumb.rs lines 122-129: Z is (res == 0),
N is the sign of res, and the four flags are written to CPSR bits 31..28. -/
def set_flags (cpsr res newV newC : Nat) : Nat :=
  set_bits cpsr 28 4 (build_flags newV newC (if res = 0 then 1 else 0) (if is_neg res then 1 else 0))

/-- Modelled from the spec: util::add_flags, the 32-bit addition primitive
returning (result, overflow, carry); carry is the bit 32 carry-out and
overflow the signed-overflow predicate of the addition. -/
def add_flags (a b cin : Nat) : Nat × Nat × Nat :=
  let res := w32 (a + b + cin)
  (res,
   if bit a 31 = bit b 31 ∧ bit res 31 ≠ bit a 31 then 1 else 0,
   if 4294967296 ≤ a + b + cin then 1 else 0)

/-- Bitwise complement of a u32. -/
def bnot32 (x : Nat) : Nat := 4294967295 - x % 4294967296

/-- Modelled from the spec: util::sub_flags, subtraction via the adder with
inverted operand, ARM borrow convention (carry set means no borrow). -/
def sub_flags (a b cin : Nat) : Nat × Nat × Nat := add_flags a (bnot32 b) (1 - cin)

/-- Modelled from the spec §4.3: util::arg_shift, a shift by a nonzero amount,
returning (result, shifter carry-out).  op 0 is LSL, 1 LSR, 2 ASR, 3 ROR. -/
def arg_shift (val shift op : Nat) : Nat × Nat :=
  if op = 0 then
    if shift < 32 then (w32 (val <<< shift), bit val (32 - shift))
    else if shift = 32 then (0, bit val 0)
    else (0, 0)
  else if op = 1 then
    if shift < 32 then (val >>> shift, bit val (shift - 1))
    else if shift = 32 then (0, bit val 31)
    else (0, 0)
  else if op = 2 then
    if shift < 32 then
      ((val >>> shift) ||| (if bit val 31 = 1 then w32 (4294967295 <<< (32 - shift)) else 0),
       bit val (shift - 1))
    else ((if bit val 31 = 1 then 4294967295 else 0), bit val 31)
  else
    if shift % 32 = 0 then (val % 4294967296, bit val 31)
    else ((val >>> (shift % 32)) ||| w32 (val <<< (32 - shift % 32)), bit val (shift % 32 - 1))

/-- Modelled from the spec §4.3: util::arg_shift0, the ARM shift-by-zero forms:
LSL0 passes the value and keeps C, LSR0 and ASR0 behave as amount 32, ROR0 is
RRX. -/
def arg_shift0 (val op c : Nat) : Nat × Nat :=
  if op = 0 then (val, c)
  else if op = 1 then (0, bit val 31)
  else if op = 2 then ((if bit val 31 = 1 then 4294967295 else 0), bit val 31)
  else (((c % 2) <<< 31) ||| (val >>> 1), bit val 0)

/-- Modelled from the spec: bit_util::sign_extend of the low bits of val to u32. -/
def sign_extend (val bits : Nat) : Nat :=
  if val % 2 ^ bits < 2 ^ (bits - 1) then val % 2 ^ bits
  else 4294967296 - 2 ^ bits + val % 2 ^ bits

/-- Modelled from the spec §Glossary: util::cond_met evaluates the 4-bit
condition field against the N, Z, C, V bits of the given CPSR; condition 0xE
is always and 0xF (reserved) is treated as never met. -/
def cond_met (cond cpsr : Nat) : Bool :=
  let n := bit cpsr 31
  let z := bit cpsr 30
  let c := bit cpsr 29
  let v := bit cpsr 28
  if cond = 0 then z == 1
  else if cond = 1 then z == 0
  else if cond = 2 then c == 1
  else if cond = 3 then c == 0
  else if cond = 4 then n == 1
  else if cond = 5 then n == 0
  else if cond = 6 then v == 1
  else if cond = 7 then v == 0
  else if cond = 8 then c == 1 && z == 0
  else if cond = 9 then c == 0 || z == 1
  else if cond = 10 then n == v
  else if cond = 11 then n != v
  else if cond = 12 then z == 0 && n == v
  else if cond = 13 then z == 1 || n != v
  else if cond = 14 then true
  else false

/-- Modelled from the spec: u32::count_ones (population count) of a u32 value. -/
def count_ones (n : Nat) : Nat := (List.range 32).countP (fun i => n.testBit i)

/-- Fuelled helper for trailing_zeros. -/
def ctzAux : Nat → Nat → Nat
  | 0, _ => 0
  | f + 1, n => if n % 2 = 1 then 0 else 1 + ctzAux f (n / 2)

/-- Modelled from the spec: u32::trailing_zeros; 32 on input 0. -/
def trailing_zeros (n : Nat) : Nat := if n = 0 then 32 else ctzAux 32 n

/-- The set bits of a 16-bit value listed in ascending index order. -/
def bitsAsc (n : Nat) : List Nat := (List.range 16).filter (fun i => n.testBit i)

/-- The twenty Thumb instruction forms of src/cpu/thumb.rs. -/
inductive Instruction
  | Shifted
  | AddSub
  | ImmOp
  | AluOp
  | HiRegBx
  | PcLoad
  | SingleXferR
  | HwSgnXfer
  | SingleXferI
  | HwXferI
  | SpXfer
  | LoadAddr
  | SpAdd
  | PushPop
  | BlockXfer
  | CondBranch
  | SoftwareInt
  | Branch
  | LongBranch
  | Undefined
  deriving DecidableEq, Repr

/-- INST_MATCH_ORDER of src/cpu/thumb.rs lines 31-52: the fixed decode
priority order. -/
def INST_MATCH_ORDER : List Instruction :=
  [.Branch, .AddSub, .AluOp, .Shifted, .ImmOp, .HiRegBx, .PcLoad, .SingleXferR,
   .HwSgnXfer, .SingleXferI, .HwXferI, .SpXfer, .LoadAddr, .SpAdd, .PushPop,
   .BlockXfer, .CondBranch, .SoftwareInt, .LongBranch, .Undefined]

/-- Instruction::pattern of src/cpu/thumb.rs lines 56-81: each form's
(mask, test) pair. -/
def Instruction.pattern : Instruction → Nat × Nat
  | .Shifted => (0xe000, 0x0000)
  | .AddSub => (0xf800, 0x1800)
  | .ImmOp => (0xe000, 0x2000)
  | .AluOp => (0xfc00, 0x4000)
  | .HiRegBx => (0xfc00, 0x4400)
  | .PcLoad => (0xf800, 0x4800)
  | .SingleXferR => (0xf200, 0x5000)
  | .HwSgnXfer => (0xf200, 0x5200)
  | .SingleXferI => (0xe000, 0x6000)
  | .HwXferI => (0xf000, 0x8000)
  | .SpXfer => (0xf000, 0x9000)
  | .LoadAddr => (0xf000, 0xa000)
  | .SpAdd => (0xff00, 0xb000)
  | .PushPop => (0xf600, 0xb400)
  | .BlockXfer => (0xf000, 0xc000)
  | .CondBranch => (0xf000, 0xd000)
  | .SoftwareInt => (0xff00, 0xdf00)
  | .Branch => (0xf800, 0xe000)
  | .LongBranch => (0xf000, 0xf000)
  | .Undefined => (0x0000, 0x0000)

/-- Instruction::decode of src/cpu/thumb.rs lines 83-91: return the first
form of INST_MATCH_ORDER whose pattern matches, Undefined otherwise. -/
def Instruction.decode (inst : Nat) : Instruction :=
  match INST_MATCH_ORDER.find? (fun t => mask_match inst t.pattern.1 t.pattern.2) with
  | some t => t
  | none => Instruction.Undefined

/-- The decode table exactly as the spec words it in §4.2/§6.2: the canonical
priority order paired with the published (mask, test) values; used only to
compare the source decoder against the spec's description. -/
def specDecodeTable : List (Instruction × Nat × Nat) :=
  [(.Branch, 0xf800, 0xe000), (.AddSub, 0xf800, 0x1800), (.AluOp, 0xfc00, 0x4000),
   (.Shifted, 0xe000, 0x0000), (.ImmOp, 0xe000, 0x2000), (.HiRegBx, 0xfc00, 0x4400),
   (.PcLoad, 0xf800, 0x4800), (.SingleXferR, 0xf200, 0x5000), (.HwSgnXfer, 0xf200, 0x5200),
   (.SingleXferI, 0xe000, 0x6000), (.HwXferI, 0xf000, 0x8000), (.SpXfer, 0xf000, 0x9000),
   (.LoadAddr, 0xf000, 0xa000), (.SpAdd, 0xff00, 0xb000), (.PushPop, 0xf600, 0xb400),
   (.BlockXfer, 0xf000, 0xc000), (.CondBranch, 0xf000, 0xd000), (.SoftwareInt, 0xff00, 0xdf00),
   (.LongBranch, 0xf000, 0xf000)]

/-- First match over the spec's table, Undefined when no pattern matches
(spec §4.2: a word matching no pattern yields Undefined). -/
def decodeSpec (inst : Nat) : Instruction :=
  match specDecodeTable.find? (fun t => (inst &&& t.2.1) == t.2.2) with
  | some t => t.1
  | none => Instruction.Undefined

/-- The abstract Memory interface of spec §6.1 consumed by the core: loads
are an oracle (pure functions of the address); stores are recorded in the
event trace.  Return types u8/u16/u32 are imposed at each call site. -/
structure Mem where
  load8 : Nat → Nat
  load16 : Nat → Nat
  load32 : Nat → Nat

/-- One observable memory access of a cycle, in program order. -/
inductive MemEvent
  | load8 (addr : Nat)
  | load16 (addr : Nat)
  | load32 (addr : Nat)
  | set8 (addr val : Nat)
  | set16 (addr val : Nat)
  | set32 (addr val : Nat)
  deriving DecidableEq, Repr

/-- Modelled from the spec §3/§9: the current-mode view of the register file
(indices 0..15) plus the CPSR.  The Thumb executor never switches mode, so
the banked file behind the indexing operator is a fixed 16-slot view here. -/
structure ThumbState where
  reg : Nat → Nat
  cpsr : Nat

/-- Read a register through its u32 type. -/
def ThumbState.r (s : ThumbState) (i : Nat) : Nat := s.reg i % 4294967296

/-- Read the CPSR through its u32 type. -/
def ThumbState.cp (s : ThumbState) : Nat := s.cpsr % 4294967296

/-- Write a register. -/
def ThumbState.setReg (s : ThumbState) (i v : Nat) : ThumbState :=
  { s with reg := fun j => if j = i then v else s.reg j }

/-- Write the CPSR. -/
def ThumbState.setCpsr (s : ThumbState) (v : Nat) : ThumbState := { s with cpsr := v }

/-- The instruction-fetch address, pc & !1 (src/cpu/thumb.rs line 99). -/
def fetchAddr (s : ThumbState) : Nat := s.r 15 &&& 0xfffffffe

/-- The fetched 16-bit instruction word. -/
def fetchWord (mem : Mem) (s : ThumbState) : Nat := mem.load16 (fetchAddr s) % 65536

/-- The common prologue's PC advance by 2 (src/cpu/thumb.rs line 116). -/
def postInc (s : ThumbState) : ThumbState := s.setReg 15 (w32 (s.r 15 + 2))

/-- The HiRegBx source operand (src/cpu/thumb.rs line 241): the register
value, plus 2 more when the composed source index is R15 (PC prefetch). -/
def hiRegOperand (s : ThumbState) (crs : Nat) : Nat :=
  w32 (s.r crs + (if crs = 15 then 1 else 0) * 2)

/-- The PcLoad access address (src/cpu/thumb.rs line 266):
(PC + 2 + imm8*4) & !3 on the post-increment PC. -/
def pcLoadAddr (s : ThumbState) (offset : Nat) : Nat :=
  w32 (w32 (s.r 15 + 2) + offset * 4) &&& 0xfffffffc

/-- The LoadAddr base (src/cpu/thumb.rs lines 364-368): (PC + 2) & !1 on the
post-increment PC when the s bit is 0, SP otherwise. -/
def loadAddrBase (s : ThumbState) (sbit : Nat) : Nat :=
  if sbit = 0 then w32 (s.r 15 + 2) &&& 0xfffffffe else s.r 13

/-- The PushPop transfer loop (src/cpu/thumb.rs lines 408-418): count
iterations, each transferring the lowest register still in rem at the i-th
word after addr and clearing it from rem. -/
def xferLoop (mem : Mem) (l addr : Nat) : Nat → Nat → Nat → ThumbState → ThumbState × List MemEvent
  | _, 0, _, s => (s, [])
  | i, count + 1, rem, s =>
    let reg := trailing_zeros rem
    let idx_addr := w32 (addr + i * 4)
    if l = 0 then
      let p := xferLoop mem l addr (i + 1) count (rem - (1 <<< reg)) s
      (p.1, MemEvent.set32 idx_addr (s.r reg) :: p.2)
    else
      let s2 := s.setReg reg (mem.load32 idx_addr % 4294967296)
      let p := xferLoop mem l addr (i + 1) count (rem - (1 <<< reg)) s2
      (p.1, MemEvent.load32 idx_addr :: p.2)

/-- The BlockXfer transfer loop (src/cpu/thumb.rs lines 434-451), including
the store special case: the original base is stored when the transferred
register is the base register and it is the first transfer. -/
def blockLoop (mem : Mem) (l base rb : Nat) : Nat → Nat → Nat → ThumbState → ThumbState × List MemEvent
  | _, 0, _, s => (s, [])
  | i, count + 1, rem, s =>
    let reg := trailing_zeros rem
    let idx_addr := w32 (base + i * 4)
    if l = 0 then
      let v := if i = 0 ∧ reg = rb then base else s.r reg
      let p := blockLoop mem l base rb (i + 1) count (rem - (1 <<< reg)) s
      (p.1, MemEvent.set32 idx_addr v :: p.2)
    else
      let s2 := s.setReg reg (mem.load32 idx_addr % 4294967296)
      let p := blockLoop mem l base rb (i + 1) count (rem - (1 <<< reg)) s2
      (p.1, MemEvent.load32 idx_addr :: p.2)

/-- The semantic body of one decoded Thumb instruction
(src/cpu/thumb.rs lines 130-486).  The state s is the post-increment state;
pc, c, v and cpsr are the values captured by the prologue.  none models a
Rust panic (the unimplemented SoftwareInt arm and the unreachable arms);
the Bool is the continue flag. -/
def runInst (mem : Mem) (ty : Instruction) (inst pc c v cpsr : Nat) (s : ThumbState) :
    Option (ThumbState × List MemEvent × Bool) :=
  match ty with
  | .Shifted =>
    let op := extract inst 11 2
    let shift := extract inst 6 5
    let rs := extract inst 3 3
    let rd := extract inst 0 3
    let rc := if shift = 0 then arg_shift0 (s.r rs) op c else arg_shift (s.r rs) shift op
    let s2 := s.setReg rd rc.1
    some (s2.setCpsr (set_flags s2.cp rc.1 v rc.2), [], true)
  | .AddSub =>
    let i := bit inst 10
    let op := bit inst 9
    let rs := extract inst 3 3
    let rd := extract inst 0 3
    let rn := extract inst 6 3
    let val2 := if i = 0 then s.r rn else rn
    if op = 0 then
      let t := add_flags (s.r rs) val2 0
      let s2 := s.setReg rd t.1
      some (s2.setCpsr (set_flags s2.cp t.1 t.2.1 t.2.2), [], true)
    else if op = 1 then
      let t := sub_flags (s.r rs) val2 0
      let s2 := s.setReg rd t.1
      some (s2.setCpsr (set_flags s2.cp t.1 t.2.1 t.2.2), [], true)
    else none
  | .ImmOp =>
    let op := extract inst 11 2
    let rd := extract inst 8 3
    let imm := extract inst 0 8
    if op = 0 then
      let s2 := s.setReg rd imm
      some (s2.setCpsr (set_flags s2.cp imm v c), [], true)
    else if op = 1 then
      let t := sub_flags (s.r rd) imm 0
      some (s.setCpsr (set_flags s.cp t.1 t.2.1 t.2.2), [], true)
    else if op = 3 then
      let t := sub_flags (s.r rd) imm 0
      let s2 := s.setReg rd t.1
      some (s2.setCpsr (set_flags s2.cp t.1 t.2.1 t.2.2), [], true)
    else if op = 2 then
      let t := add_flags (s.r rd) imm 0
      let s2 := s.setReg rd t.1
      some (s2.setCpsr (set_flags s2.cp t.1 t.2.1 t.2.2), [], true)
    else none
  | .AluOp =>
    let op := extract inst 6 4
    let rs := extract inst 3 3
    let rd := extract inst 0 3
    let vals := s.r rs
    let vald := s.r rd
    let shiftRes :=
      (if vals &&& 0xff = 0 then (vald, c)
       else arg_shift vald (vals &&& 0xff) (((op >>> 1) &&& 2) ||| (op &&& 1)))
    let t : Option (Nat × Nat × Nat) :=
      if op = 0 ∨ op = 8 then some (vald &&& vals, v, c)
      else if op = 1 then some (vald ^^^ vals, v, c)
      else if op = 2 ∨ op = 3 ∨ op = 4 ∨ op = 7 then some (shiftRes.1, v, shiftRes.2)
      else if op = 5 then some (add_flags vald vals c)
      else if op = 6 then some (add_flags vald vals (1 - c))
      else if op = 9 then some (sub_flags 0 vals 0)
      else if op = 10 then some (sub_flags vald vals 0)
      else if op = 11 then some (add_flags vald vals 0)
      else if op = 12 then some (vald ||| vals, v, c)
      else if op = 13 then some (w32 (vald * vals), v, 0)
      else if op = 14 then some (vald &&& bnot32 vals, v, c)
      else if op = 15 then some (bnot32 vals, v, c)
      else none
    match t with
    | none => none
    | some r =>
      let s2 := if op = 8 ∨ op = 10 ∨ op = 11 then s else s.setReg rd r.1
      some (s2.setCpsr (set_flags s2.cp r.1 r.2.1 r.2.2), [], true)
  | .HiRegBx =>
    let op := extract inst 8 2
    let hd := bit inst 7
    let hs := bit inst 6
    let rs := extract inst 3 3
    let rd := extract inst 0 3
    let crs := hs * 8 + rs
    let crd := hd * 8 + rd
    let vals := hiRegOperand s crs
    if op = 0 then some (s.setReg crd (w32 (s.r crd + vals)), [], true)
    else if op = 1 then
      let t := sub_flags (s.r crd) vals 0
      some (s.setCpsr (set_flags s.cp t.1 t.2.1 t.2.2), [], true)
    else if op = 2 then some (s.setReg crd vals, [], true)
    else if op = 3 then
      let new_t := bit vals 0
      let mask : Nat := if new_t = 0 then 0xfffffffc else 0xfffffffe
      let s2 := s.setReg 15 (vals &&& mask)
      some (s2.setCpsr ((cpsr &&& 0xffffffdf) ||| (new_t <<< 5)), [], true)
    else none
  | .PcLoad =>
    let rd := extract inst 8 3
    let offset := extract inst 0 8
    let addr := pcLoadAddr s offset
    some (s.setReg rd (mem.load32 addr % 4294967296), [MemEvent.load32 addr], true)
  | .SingleXferR =>
    let l := bit inst 11
    let b := bit inst 10
    let ro := extract inst 6 3
    let rb := extract inst 3 3
    let rd := extract inst 0 3
    let addr := w32 (s.r rb + s.r ro)
    if l = 0 ∧ b = 0 then some (s, [MemEvent.set32 (addr &&& 0xfffffffc) (s.r rd)], true)
    else if l = 0 ∧ b = 1 then some (s, [MemEvent.set8 addr (s.r rd % 256)], true)
    else if l = 1 ∧ b = 0 then
      some (s.setReg rd (mem.load32 (addr &&& 0xfffffffc) % 4294967296),
            [MemEvent.load32 (addr &&& 0xfffffffc)], true)
    else if l = 1 ∧ b = 1 then
      some (s.setReg rd (mem.load8 addr % 256), [MemEvent.load8 addr], true)
    else none
  | .HwSgnXfer =>
    let h := bit inst 11
    let sb := bit inst 10
    let ro := extract inst 6 3
    let rb := extract inst 3 3
    let rd := extract inst 0 3
    let addr := w32 (s.r rb + s.r ro)
    if h = 0 ∧ sb = 0 then
      some (s, [MemEvent.set16 (addr &&& 0xfffffffe) (s.r rd % 65536)], true)
    else if h = 0 ∧ sb = 1 then
      some (s.setReg rd (mem.load16 (addr &&& 0xfffffffe) % 65536),
            [MemEvent.load16 (addr &&& 0xfffffffe)], true)
    else if h = 1 ∧ sb = 0 then
      some (s.setReg rd (sign_extend (mem.load8 addr % 256) 8), [MemEvent.load8 addr], true)
    else if h = 1 ∧ sb = 1 then
      some (s.setReg rd (sign_extend (mem.load16 (addr &&& 0xfffffffe) % 65536) 16),
            [MemEvent.load16 (addr &&& 0xfffffffe)], true)
    else none
  | .SingleXferI =>
    let l := bit inst 11
    let b := bit inst 12
    let offset := extract inst 6 5
    let rb := extract inst 3 3
    let rd := extract inst 0 3
    if b = 0 then
      let addr := w32 (s.r rb + offset * 4) &&& 0xfffffffc
      if l = 0 then some (s, [MemEvent.set32 addr (s.r rd)], true)
      else some (s.setReg rd (mem.load32 addr % 4294967296), [MemEvent.load32 addr], true)
    else
      let addr := w32 (s.r rb + offset)
      if l = 0 then some (s, [MemEvent.set8 addr (s.r rd % 256)], true)
      else some (s.setReg rd (mem.load8 addr % 256), [MemEvent.load8 addr], true)
  | .HwXferI =>
    let l := bit inst 11
    let offset := extract inst 6 5
    let rb := extract inst 3 3
    let rd := extract inst 0 3
    let addr := w32 (s.r rb + offset * 2) &&& 0xfffffffe
    if l = 0 then some (s, [MemEvent.set16 addr (s.r rd % 65536)], true)
    else some (s.setReg rd (mem.load16 addr % 65536), [MemEvent.load16 addr], true)
  | .SpXfer =>
    let l := bit inst 11
    let rd := extract inst 8 3
    let offset := extract inst 0 8 * 4
    let addr := w32 (s.r 13 + offset)
    if l = 0 then some (s, [MemEvent.set32 addr (s.r rd)], true)
    else some (s.setReg rd (mem.load32 addr % 4294967296), [MemEvent.load32 addr], true)
  | .LoadAddr =>
    let sb := bit inst 11
    let rd := extract inst 8 3
    let imm := extract inst 0 8
    some (s.setReg rd (w32 (loadAddrBase s sb + imm * 4)), [], true)
  | .SpAdd =>
    let sb := bit inst 7
    let imm := extract inst 0 7 * 4
    let sp := s.r 13
    some (s.setReg 13 (if sb = 0 then w32 (sp + imm) else wsub sp imm), [], true)
  | .PushPop =>
    let l := bit inst 11
    let r := bit inst 8
    let rlist := extract inst 0 8
    let total := count_ones rlist + r
    let base := s.r 13 &&& 0xfffffffc
    let post_addr := if l = 0 then wsub base (total * 4) else w32 (base + total * 4)
    let addr := if l = 0 then post_addr else base
    let rem := rlist ||| (if r = 1 then 1 <<< (if l = 0 then 14 else 15) else 0)
    let p := xferLoop mem l addr 0 total rem s
    some (p.1.setReg 13 post_addr, p.2, true)
  | .BlockXfer =>
    let l := bit inst 11
    let rb := extract inst 8 3
    let rlist := extract inst 0 8
    let total := count_ones rlist
    let base := s.r rb
    let s1 := s.setReg rb (w32 (base + total * 4))
    let p := blockLoop mem l base rb 0 total rlist s1
    some (p.1, p.2, true)
  | .CondBranch =>
    let cond := extract inst 8 4
    let offset := sign_extend (extract inst 0 8) 8
    if cond_met cond cpsr then
      some (s.setReg 15 (w32 (w32 (pc + 4) + w32 (offset <<< 1))), [], true)
    else some (s, [], true)
  | .SoftwareInt => none
  | .Branch =>
    let offset := sign_extend (extract inst 0 11 <<< 1) 12
    some (s.setReg 15 (w32 (w32 (pc + 4) + offset)), [], true)
  | .LongBranch =>
    let h := bit inst 11
    let offset := extract inst 0 11
    if h = 0 then
      some (s.setReg 14 (w32 (w32 (pc + 4) + sign_extend (offset <<< 12) 23)), [], true)
    else
      let s2 := s.setReg 15 (w32 (s.r 14 + (offset <<< 1)))
      some (s2.setReg 14 (w32 (pc + 2) ||| 1), [], true)
  | .Undefined => some (s, [], false)

/-- Cpu::execute_thumb (src/cpu/thumb.rs lines 97-489): fetch, capture C/V,
advance PC by 2, decode and run the semantic body.  none models a panic;
the Bool result is the continue flag. -/
def execute_thumb (mem : Mem) (s : ThumbState) : Option (ThumbState × List MemEvent × Bool) :=
  match runInst mem (Instruction.decode (fetchWord mem s)) (fetchWord mem s) (s.r 15)
      (bit s.cp 29) (bit s.cp 28) s.cp (postInc s) with
  | none => none
  | some (s2, evs, b) => some (s2, MemEvent.load16 (fetchAddr s) :: evs, b)

/-- Cpu::thumb_mode (src/cpu/mod.rs lines 81-83). -/
def thumb_mode (s : ThumbState) : Bool := s.cp &&& (1 <<< 5) != 0

/-- Cpu::cycle (src/cpu/mod.rs lines 64-73): consult the breakpoint set
(first component: the debug notification), then dispatch on the T bit.
The ARM executor lives in src/cpu/arm.rs, which is not part of the sources;
per spec §4.4 it is modelled as an abstract step function over the same
state, memory oracle and trace, taken as a parameter. -/
def cycle (armExec : Mem → ThumbState → Option (ThumbState × List MemEvent × Bool))
    (brk : Nat → Bool) (mem : Mem) (s : ThumbState) :
    Bool × Option (ThumbState × List MemEvent × Bool) :=
  (brk (s.r 15), if thumb_mode s then execute_thumb mem s else armExec mem s)

def memConst (w : Nat) : Mem := { load8 := fun _ => 0, load16 := fun _ => w, load32 := fun _ => 0 }

def s0 : ThumbState := { reg := fun _ => 0, cpsr := 0x3F }

def evAligned : MemEvent → Bool
  | .load8 _ => true
  | .set8 _ _ => true
  | .load16 a => a % 2 == 0
  | .set16 a _ => a % 2 == 0
  | .load32 a => a % 4 == 0
  | .set32 a _ => a % 4 == 0

def thumbEvents (mem : Mem) (s : ThumbState) : List MemEvent :=
  (execute_thumb mem s).elim [] (fun o => o.2.1)

def spState (v : Nat) : ThumbState := { reg := fun i => if i = 13 then v else 0, cpsr := 0x3F }

def storeEvs (s1 : ThumbState) (start : Nat) : Nat → List Nat → List MemEvent
  | _, [] => []
  | i, rg :: rest => MemEvent.set32 (w32 (start + i * 4)) (s1.r rg) :: storeEvs s1 start (i + 1) rest

def loadEvs (start : Nat) : Nat → List Nat → List MemEvent
  | _, [] => []
  | i, _ :: rest => MemEvent.load32 (w32 (start + i * 4)) :: loadEvs start (i + 1) rest

def applyLoads (mem : Mem) (start : Nat) : Nat → List Nat → ThumbState → ThumbState
  | _, [], s => s
  | i, rg :: rest, s =>
    applyLoads mem start (i + 1) rest (s.setReg rg (mem.load32 (w32 (start + i * 4)) % 4294967296))

def pushPopRem (w : Nat) : Nat :=
  extract w 0 8 ||| (if bit w 8 = 1 then 1 <<< (if bit w 11 = 0 then 14 else 15) else 0)

/-- The PushPop outcome as the spec words it: the registers of the
(ascending) transfer list moved at consecutive word addresses starting at
the transfer start address, and SP written once to the post-address. -/
def pushPopSpec (mem : Mem) (w : Nat) (s1 : ThumbState) : ThumbState × List MemEvent :=
  let total := count_ones (extract w 0 8) + bit w 8
  let base := s1.r 13 &&& 0xfffffffc
  let post := if bit w 11 = 0 then wsub base (total * 4) else w32 (base + total * 4)
  let start := if bit w 11 = 0 then post else base
  let regs := bitsAsc (pushPopRem w)
  ((if bit w 11 = 0 then s1 else applyLoads mem start 0 regs s1).setReg 13 post,
   if bit w 11 = 0 then storeEvs s1 start 0 regs else loadEvs start 0 regs)

theorem decode_eq_spec : ∀ w : Nat, Instruction.decode w = decodeSpec w := by
  intro w
  simp only [Instruction.decode, decodeSpec, INST_MATCH_ORDER, specDecodeTable,
    List.find?, mask_match, Instruction.pattern]
  cases w &&& 63488 == 57344 <;> try rfl
  cases w &&& 63488 == 6144 <;> try rfl
  cases w &&& 64512 == 16384 <;> try rfl
  cases w &&& 57344 == 0 <;> try rfl
  cases w &&& 57344 == 8192 <;> try rfl
  cases w &&& 64512 == 17408 <;> try rfl
  cases w &&& 63488 == 18432 <;> try rfl
  cases w &&& 61952 == 20480 <;> try rfl
  cases w &&& 61952 == 20992 <;> try rfl
  cases w &&& 57344 == 24576 <;> try rfl
  cases w &&& 61440 == 32768 <;> try rfl
  cases w &&& 61440 == 36864 <;> try rfl
  cases w &&& 61440 == 40960 <;> try rfl
  cases w &&& 65280 == 45056 <;> try rfl
  cases w &&& 62976 == 46080 <;> try rfl
  cases w &&& 61440 == 49152 <;> try rfl
  cases w &&& 61440 == 53248 <;> try rfl
  cases w &&& 65280 == 57088 <;> try rfl
  cases w &&& 61440 == 61440 <;> try rfl
  cases w &&& 0 == 0 <;> rfl

theorem land_sub_eq (w m : Nat) (hm : 0xff00 &&& m = m) (h : w &&& 0xff00 = 0xdf00) :
    w &&& m = 0xdf00 &&& m := by
  calc w &&& m = w &&& (0xff00 &&& m) := by rw [hm]
    _ = (w &&& 0xff00) &&& m := by rw [Nat.land_assoc]
    _ = 0xdf00 &&& m := by rw [h]

theorem decode_swi_is_condBranch (w : Nat) (h : w &&& 0xff00 = 0xdf00) :
    Instruction.decode w = Instruction.CondBranch := by
  have h1 : w &&& 63488 = 55296 := by rw [land_sub_eq w 63488 (by decide) h]; decide
  have h2 : w &&& 64512 = 56320 := by rw [land_sub_eq w 64512 (by decide) h]; decide
  have h3 : w &&& 57344 = 49152 := by rw [land_sub_eq w 57344 (by decide) h]; decide
  have h4 : w &&& 61952 = 53760 := by rw [land_sub_eq w 61952 (by decide) h]; decide
  have h5 : w &&& 61440 = 53248 := by rw [land_sub_eq w 61440 (by decide) h]; decide
  have h6 : w &&& 65280 = 57088 := by rw [land_sub_eq w 65280 (by decide) h]; decide
  have h7 : w &&& 62976 = 54784 := by rw [land_sub_eq w 62976 (by decide) h]; decide
  simp only [Instruction.decode, INST_MATCH_ORDER, List.find?, mask_match,
    Instruction.pattern, h1, h2, h3, h4, h5, h6, h7]
  rfl

theorem decode_ne_swi (w : Nat) : Instruction.decode w ≠ Instruction.SoftwareInt := by
  intro hcontra
  by_cases h : w &&& 0xff00 = 0xdf00
  · rw [decode_swi_is_condBranch w h] at hcontra
    exact absurd hcontra (by decide)
  · have : Instruction.decode w = Instruction.SoftwareInt := hcontra
    unfold Instruction.decode at this
    rcases hfind : List.find? (fun t => mask_match w t.pattern.1 t.pattern.2) INST_MATCH_ORDER with _ | t
    · rw [hfind] at this; exact absurd this (by decide)
    · rw [hfind] at this
      simp only [] at this
      subst this
      have hp := List.find?_some hfind
      simp only [mask_match, Instruction.pattern, beq_iff_eq] at hp
      exact h hp

theorem r_setReg (s : ThumbState) (i v j : Nat) :
    (s.setReg i v).r j = if j = i then v % 4294967296 else s.r j := by
  simp only [ThumbState.setReg, ThumbState.r]
  split <;> rfl

theorem cp_setReg (s : ThumbState) (i v : Nat) : (s.setReg i v).cp = s.cp := rfl

/-- C2: the Thumb decode function is total — every 16-bit word maps to
exactly one form, namely the first form whose (mask, test) pattern matches
in the canonical priority order (the decoder agrees with the spec's table
everywhere, with Undefined when no pattern matches) — and each of the
nineteen worked fixture words decodes to the listed form. -/
theorem decode_total_and_fixtures :
    (∀ w : Nat, Instruction.decode w = decodeSpec w) ∧
    (∀ w : Nat, ∃! f : Instruction, Instruction.decode w = f) ∧
    (Instruction.decode 0x0fb4 = .Shifted ∧ Instruction.decode 0x1c0a = .AddSub ∧
     Instruction.decode 0x200a = .ImmOp ∧ Instruction.decode 0x4042 = .AluOp ∧
     Instruction.decode 0x466c = .HiRegBx ∧ Instruction.decode 0x4d00 = .PcLoad ∧
     Instruction.decode 0x5045 = .SingleXferR ∧ Instruction.decode 0x5fb9 = .HwSgnXfer ∧
     Instruction.decode 0x7078 = .SingleXferI ∧ Instruction.decode 0x80b9 = .HwXferI ∧
     Instruction.decode 0x9102 = .SpXfer ∧ Instruction.decode 0xa001 = .LoadAddr ∧
     Instruction.decode 0xb082 = .SpAdd ∧ Instruction.decode 0xb407 = .PushPop ∧
     Instruction.decode 0xc103 = .BlockXfer ∧ Instruction.decode 0xd1fb = .CondBranch ∧
     Instruction.decode 0xe002 = .Branch ∧ Instruction.decode 0xf801 = .LongBranch ∧
     Instruction.decode 0xe800 = .Undefined) :=
  ⟨decode_eq_spec, fun w => ⟨Instruction.decode w, rfl, fun _ h => h.symm⟩, by decide⟩

/-- C3 counterexample: the word 0xdf00 satisfies (w & 0xff00) == 0xdf00 but
decodes to CondBranch, not SoftwareInt, because CondBranch precedes
SoftwareInt in INST_MATCH_ORDER and its (0xf000, 0xd000) pattern already
matches every SWI encoding. -/
theorem swi_word_decodes_to_condBranch_cex :
    (0xdf00 &&& 0xff00 = 0xdf00) ∧ Instruction.decode 0xdf00 = Instruction.CondBranch ∧
    Instruction.decode 0xdf00 ≠ Instruction.SoftwareInt := by decide

/-- C3 amended: every 16-bit word w with (w & 0xff00) == 0xdf00 (a Thumb SWI
encoding) decodes to CondBranch; SoftwareInt is unreachable in decode. -/
theorem swi_words_decode_to_condBranch (w : Nat) (h : w &&& 0xff00 = 0xdf00) :
    Instruction.decode w = Instruction.CondBranch :=
  decode_swi_is_condBranch w h

theorem swi_words_decode_to_condBranch_witness :
    Instruction.decode 0xdfff = Instruction.CondBranch :=
  swi_words_decode_to_condBranch 0xdfff (by decide)

/-- C4: after set_flags(res, v, c), CPSR bit 31 (N) is the sign bit of res,
bit 30 (Z) is (res == 0), bit 29 (C) is c, bit 28 (V) is v, and CPSR bits
27..0 are exactly their previous values. -/
theorem set_flags_spec (cpsr res v c : Nat) (hv : v ≤ 1) (hc : c ≤ 1) :
    bit (set_flags cpsr res v c) 31 = bit res 31 ∧
    (bit (set_flags cpsr res v c) 30 = if res = 0 then 1 else 0) ∧
    bit (set_flags cpsr res v c) 29 = c ∧
    bit (set_flags cpsr res v c) 28 = v ∧
    set_flags cpsr res v c % 2 ^ 28 = cpsr % 2 ^ 28 := by
  have hb : bit res 31 ≤ 1 := Nat.le_of_lt_succ (Nat.mod_lt _ (by norm_num))
  have hn : (if is_neg res then (1:Nat) else 0) = bit res 31 := by
    unfold is_neg
    rcases Nat.le_one_iff_eq_zero_or_eq_one.mp hb with h | h <;> simp [h]
  have hsf : set_flags cpsr res v c =
      cpsr % 268435456 + 268435456 *
        ((bit res 31 * 8 + (if res = 0 then 1 else 0) * 4 + c * 2 + v) % 16
          + 16 * (cpsr / 4294967296)) := by
    unfold set_flags set_bits build_flags
    rw [hn]
    norm_num [Nat.add_assoc]
  simp only [bit, Nat.shiftRight_eq_div_pow] at hsf hb ⊢
  by_cases hz : res = 0 <;>
    simp only [hz, if_true, if_false, if_pos, if_neg, not_false_iff] at hsf ⊢ <;>
    refine ⟨?_, ?_, ?_, ?_, ?_⟩ <;> rw [hsf] <;> norm_num <;> omega

theorem set_flags_spec_witness :
    bit (set_flags 0x12345678 0 1 0) 31 = bit 0 31 ∧
    (bit (set_flags 0x12345678 0 1 0) 30 = if (0:Nat) = 0 then 1 else 0) ∧
    bit (set_flags 0x12345678 0 1 0) 29 = 0 ∧
    bit (set_flags 0x12345678 0 1 0) 28 = 1 ∧
    set_flags 0x12345678 0 1 0 % 2 ^ 28 = 0x12345678 % 2 ^ 28 :=
  set_flags_spec 0x12345678 0 1 0 (by decide) (by decide)

/-- C7: for the three forms that read a prefetch-adjusted PC — the HiRegBx
source operand when the composed source index is R15, the PcLoad access
address, and the PC-based LoadAddr base — the PC value used by the semantic
body (which runs on the post-increment state) is the post-increment PC plus
2, that is, the instruction's address plus 4. -/
theorem pc_prefetch_reads (s : ThumbState) (off : Nat) :
    hiRegOperand (postInc s) 15 = w32 (s.r 15 + 4) ∧
    pcLoadAddr (postInc s) off = (w32 (w32 (s.r 15 + 4) + off * 4) &&& 0xfffffffc) ∧
    loadAddrBase (postInc s) 0 = (w32 (s.r 15 + 4) &&& 0xfffffffe) := by
  have hr : (postInc s).r 15 = (s.r 15 + 2) % 4294967296 := by
    rw [postInc, r_setReg]
    simp [w32]
  refine ⟨?_, ?_, ?_⟩
  · simp [hiRegOperand, hr, w32]
  · simp [pcLoadAddr, hr, w32]
  · simp [loadAddrBase, hr, w32]

/-- C8: cycle() is breakpoint-independent — for any two breakpoint sets the
register file, CPSR, memory-event trace and continue flag it produces are
identical; a breakpoint hit is only the debug notification (the first
component), never a change to execution. -/
theorem cycle_breakpoint_independent
    (armExec : Mem → ThumbState → Option (ThumbState × List MemEvent × Bool))
    (brk1 brk2 : Nat → Bool) (mem : Mem) (s : ThumbState) :
    (cycle armExec brk1 mem s).2 = (cycle armExec brk2 mem s).2 := rfl

theorem stateExt (s t : ThumbState) (h1 : ∀ j, s.reg j = t.reg j) (h2 : s.cpsr = t.cpsr) :
    s = t := by
  cases s; cases t
  simp only [ThumbState.mk.injEq]
  exact ⟨funext h1, h2⟩

theorem extract_lt (x off len : Nat) : extract x off len < 2 ^ len :=
  Nat.mod_lt _ (Nat.pos_pow_of_pos _ (by norm_num))

theorem count_ones_zero : count_ones 0 = 0 := by decide

/-- C10: a BlockXfer instruction with an empty 8-bit register list performs
no data load or store (the trace is the instruction fetch alone), writes the
base register back its unchanged value, leaves the CPSR untouched, and the
final state differs from the initial one only in PC, which has advanced
by 2 — it is exactly the post-increment state. -/
theorem blockxfer_empty_noop (mem : Mem) (s : ThumbState)
    (hw : ∀ i, s.reg i < 4294967296)
    (hd : Instruction.decode (fetchWord mem s) = Instruction.BlockXfer)
    (hz : extract (fetchWord mem s) 0 8 = 0) :
    execute_thumb mem s = some (postInc s, [MemEvent.load16 (fetchAddr s)], true) := by
  unfold execute_thumb
  rw [hd]
  unfold runInst
  rw [hz]
  simp only [count_ones_zero, Nat.zero_mul, Nat.add_zero, blockLoop]
  have hrb : extract (fetchWord mem s) 8 3 ≠ 15 := by
    have := extract_lt (fetchWord mem s) 8 3
    omega
  have hpreg : (postInc s).reg (extract (fetchWord mem s) 8 3) = s.reg (extract (fetchWord mem s) 8 3) := by
    simp only [postInc, ThumbState.setReg]
    rw [if_neg hrb]
  have hr : w32 ((postInc s).r (extract (fetchWord mem s) 8 3)) = s.reg (extract (fetchWord mem s) 8 3) := by
    rw [ThumbState.r, hpreg, w32]
    have := hw (extract (fetchWord mem s) 8 3)
    omega
  rw [hr]
  have : (postInc s).setReg (extract (fetchWord mem s) 8 3) (s.reg (extract (fetchWord mem s) 8 3)) = postInc s := by
    apply stateExt
    · intro j
      simp only [ThumbState.setReg]
      split
      · rename_i hj
        rw [hj, hpreg]
      · rfl
    · rfl
  rw [this]

/-- C9: an AluOp instruction with opcode 6 (SBC) computes its result and
flags with the addition primitive add_flags applied to (Rd, Rs, 1 - C) — the
same primitive the ADC opcode uses, with the carry-in inverted — so
Rd becomes (Rd + Rs + (1 - C)) mod 2^32 with carry and overflow derived from
that addition, not from a subtraction of Rs from Rd. -/
theorem sbc_uses_add_primitive (mem : Mem) (s : ThumbState)
    (hd : Instruction.decode (fetchWord mem s) = Instruction.AluOp)
    (hop : extract (fetchWord mem s) 6 4 = 6) :
    execute_thumb mem s = some
      (((postInc s).setReg (extract (fetchWord mem s) 0 3)
          (add_flags ((postInc s).r (extract (fetchWord mem s) 0 3))
            ((postInc s).r (extract (fetchWord mem s) 3 3)) (1 - bit s.cp 29)).1).setCpsr
        (set_flags s.cp
          (add_flags ((postInc s).r (extract (fetchWord mem s) 0 3))
            ((postInc s).r (extract (fetchWord mem s) 3 3)) (1 - bit s.cp 29)).1
          (add_flags ((postInc s).r (extract (fetchWord mem s) 0 3))
            ((postInc s).r (extract (fetchWord mem s) 3 3)) (1 - bit s.cp 29)).2.1
          (add_flags ((postInc s).r (extract (fetchWord mem s) 0 3))
            ((postInc s).r (extract (fetchWord mem s) 3 3)) (1 - bit s.cp 29)).2.2),
       [MemEvent.load16 (fetchAddr s)], true) ∧
    (add_flags ((postInc s).r (extract (fetchWord mem s) 0 3))
       ((postInc s).r (extract (fetchWord mem s) 3 3)) (1 - bit s.cp 29)).1 =
      (((postInc s).r (extract (fetchWord mem s) 0 3)) +
       ((postInc s).r (extract (fetchWord mem s) 3 3)) + (1 - bit s.cp 29)) % 4294967296 := by
  constructor
  · unfold execute_thumb
    rw [hd]
    unfold runInst
    rw [hop]
    norm_num
    rfl
  · rfl

theorem runInst_total (mem : Mem) (ty : Instruction) (inst pc c v cpsr : Nat) (s : ThumbState)
    (hne : ty ≠ Instruction.SoftwareInt) :
    ∃ out, runInst mem ty inst pc c v cpsr s = some out ∧
      (out.2.2 = false ↔ ty = Instruction.Undefined) := by
  have hb7 : bit inst 7 ≤ 1 := by unfold bit; omega
  have hb9 : bit inst 9 ≤ 1 := by unfold bit; omega
  have hb10 : bit inst 10 ≤ 1 := by unfold bit; omega
  have hb11 : bit inst 11 ≤ 1 := by unfold bit; omega
  have hb12 : bit inst 12 ≤ 1 := by unfold bit; omega
  cases ty
  case Shifted => exact ⟨_, rfl, by simp⟩
  case AddSub =>
    have h : bit inst 9 = 0 ∨ bit inst 9 = 1 := by omega
    rcases h with h | h <;>
    · simp only [runInst, h]
      exact ⟨_, rfl, by simp⟩
  case ImmOp =>
    have h4 : extract inst 11 2 < 4 := extract_lt _ _ _
    have h : extract inst 11 2 = 0 ∨ extract inst 11 2 = 1 ∨ extract inst 11 2 = 2 ∨
        extract inst 11 2 = 3 := by omega
    rcases h with h | h | h | h <;>
    · simp only [runInst, h]
      exact ⟨_, rfl, by simp⟩
  case AluOp =>
    have h16 : extract inst 6 4 < 16 := extract_lt _ _ _
    have h : extract inst 6 4 = 0 ∨ extract inst 6 4 = 1 ∨ extract inst 6 4 = 2 ∨
        extract inst 6 4 = 3 ∨ extract inst 6 4 = 4 ∨ extract inst 6 4 = 5 ∨
        extract inst 6 4 = 6 ∨ extract inst 6 4 = 7 ∨ extract inst 6 4 = 8 ∨
        extract inst 6 4 = 9 ∨ extract inst 6 4 = 10 ∨ extract inst 6 4 = 11 ∨
        extract inst 6 4 = 12 ∨ extract inst 6 4 = 13 ∨ extract inst 6 4 = 14 ∨
        extract inst 6 4 = 15 := by omega
    rcases h with h|h|h|h|h|h|h|h|h|h|h|h|h|h|h|h <;>
    · simp only [runInst, h]
      exact ⟨_, rfl, by simp⟩
  case HiRegBx =>
    have h4 : extract inst 8 2 < 4 := extract_lt _ _ _
    have h : extract inst 8 2 = 0 ∨ extract inst 8 2 = 1 ∨ extract inst 8 2 = 2 ∨
        extract inst 8 2 = 3 := by omega
    rcases h with h | h | h | h <;>
    · simp only [runInst, h]
      exact ⟨_, rfl, by simp⟩
  case PcLoad => exact ⟨_, rfl, by simp⟩
  case SingleXferR =>
    have hl : bit inst 11 = 0 ∨ bit inst 11 = 1 := by omega
    have hbb : bit inst 10 = 0 ∨ bit inst 10 = 1 := by omega
    rcases hl with h | h <;> rcases hbb with h2 | h2 <;>
    · simp only [runInst, h, h2]
      exact ⟨_, rfl, by simp⟩
  case HwSgnXfer =>
    have hl : bit inst 11 = 0 ∨ bit inst 11 = 1 := by omega
    have hbb : bit inst 10 = 0 ∨ bit inst 10 = 1 := by omega
    rcases hl with h | h <;> rcases hbb with h2 | h2 <;>
    · simp only [runInst, h, h2]
      exact ⟨_, rfl, by simp⟩
  case SingleXferI =>
    have hl : bit inst 11 = 0 ∨ bit inst 11 = 1 := by omega
    have hbb : bit inst 12 = 0 ∨ bit inst 12 = 1 := by omega
    rcases hl with h | h <;> rcases hbb with h2 | h2 <;>
    · simp only [runInst, h, h2]
      exact ⟨_, rfl, by simp⟩
  case HwXferI =>
    have hl : bit inst 11 = 0 ∨ bit inst 11 = 1 := by omega
    rcases hl with h | h <;>
    · simp only [runInst, h]
      exact ⟨_, rfl, by simp⟩
  case SpXfer =>
    have hl : bit inst 11 = 0 ∨ bit inst 11 = 1 := by omega
    rcases hl with h | h <;>
    · simp only [runInst, h]
      exact ⟨_, rfl, by simp⟩
  case LoadAddr => exact ⟨_, rfl, by simp⟩
  case SpAdd =>
    have hl : bit inst 7 = 0 ∨ bit inst 7 = 1 := by omega
    rcases hl with h | h <;>
    · simp only [runInst, h]
      exact ⟨_, rfl, by simp⟩
  case PushPop => exact ⟨_, rfl, by simp⟩
  case BlockXfer => exact ⟨_, rfl, by simp⟩
  case CondBranch =>
    simp only [runInst]
    split <;> exact ⟨_, rfl, by simp⟩
  case SoftwareInt => exact absurd rfl hne
  case Branch => exact ⟨_, rfl, by simp⟩
  case LongBranch =>
    have hl : bit inst 11 = 0 ∨ bit inst 11 = 1 := by omega
    rcases hl with h | h <;>
    · simp only [runInst, h]
      exact ⟨_, rfl, by simp⟩
  case Undefined => exact ⟨_, rfl, by simp⟩

theorem execute_thumb_total (mem : Mem) (s : ThumbState) :
    ∃ s2 evs b, execute_thumb mem s = some (s2, evs, b) ∧
      (b = false ↔ Instruction.decode (fetchWord mem s) = Instruction.Undefined) := by
  obtain ⟨out, hrun, hiff⟩ := runInst_total mem (Instruction.decode (fetchWord mem s))
    (fetchWord mem s) (s.r 15) (bit s.cp 29) (bit s.cp 28) s.cp (postInc s)
    (decode_ne_swi (fetchWord mem s))
  refine ⟨out.1, MemEvent.load16 (fetchAddr s) :: out.2.1, out.2.2, ?_, hiff⟩
  unfold execute_thumb
  rw [hrun]

/-- C1: for every CPU state with the T bit set, cycle() returns normally
(the embedding never yields none, which models a Rust panic; the
unimplemented SoftwareInt arm is unreachable because decode never returns
SoftwareInt) and its continue flag is false exactly when the Thumb decoder
classifies the fetched 16-bit word as Undefined. -/
theorem cycle_thumb_no_panic (armExec : Mem → ThumbState → Option (ThumbState × List MemEvent × Bool))
    (brk : Nat → Bool) (mem : Mem) (s : ThumbState) (ht : thumb_mode s = true) :
    ∃ s2 evs b, (cycle armExec brk mem s).2 = some (s2, evs, b) ∧
      (b = false ↔ Instruction.decode (fetchWord mem s) = Instruction.Undefined) := by
  unfold cycle
  rw [ht]
  exact execute_thumb_total mem s

theorem cycle_thumb_no_panic_witness :
    ∃ s2 evs b, (cycle (fun _ _ => none) (fun _ => false) (memConst 0) s0).2 = some (s2, evs, b) ∧
      (b = false ↔ Instruction.decode (fetchWord (memConst 0) s0) = Instruction.Undefined) :=
  cycle_thumb_no_panic (fun _ _ => none) (fun _ => false) (memConst 0) s0 (by decide)

theorem sbc_uses_add_primitive_witness :
    execute_thumb (memConst 0x4188) s0 = some
      (((postInc s0).setReg (extract (fetchWord (memConst 0x4188) s0) 0 3)
          (add_flags ((postInc s0).r (extract (fetchWord (memConst 0x4188) s0) 0 3))
            ((postInc s0).r (extract (fetchWord (memConst 0x4188) s0) 3 3)) (1 - bit s0.cp 29)).1).setCpsr
        (set_flags s0.cp
          (add_flags ((postInc s0).r (extract (fetchWord (memConst 0x4188) s0) 0 3))
            ((postInc s0).r (extract (fetchWord (memConst 0x4188) s0) 3 3)) (1 - bit s0.cp 29)).1
          (add_flags ((postInc s0).r (extract (fetchWord (memConst 0x4188) s0) 0 3))
            ((postInc s0).r (extract (fetchWord (memConst 0x4188) s0) 3 3)) (1 - bit s0.cp 29)).2.1
          (add_flags ((postInc s0).r (extract (fetchWord (memConst 0x4188) s0) 0 3))
            ((postInc s0).r (extract (fetchWord (memConst 0x4188) s0) 3 3)) (1 - bit s0.cp 29)).2.2),
       [MemEvent.load16 (fetchAddr s0)], true) ∧
    (add_flags ((postInc s0).r (extract (fetchWord (memConst 0x4188) s0) 0 3))
       ((postInc s0).r (extract (fetchWord (memConst 0x4188) s0) 3 3)) (1 - bit s0.cp 29)).1 =
      (((postInc s0).r (extract (fetchWord (memConst 0x4188) s0) 0 3)) +
       ((postInc s0).r (extract (fetchWord (memConst 0x4188) s0) 3 3)) + (1 - bit s0.cp 29)) % 4294967296 :=
  sbc_uses_add_primitive (memConst 0x4188) s0 (by decide) (by decide)

theorem blockxfer_empty_noop_witness :
    execute_thumb (memConst 0xc000) s0 =
      some (postInc s0, [MemEvent.load16 (fetchAddr s0)], true) :=
  blockxfer_empty_noop (memConst 0xc000) s0 (by intro i; simp [s0]) (by decide) (by decide)

theorem align4 (x : Nat) : (x &&& 0xfffffffc) % 4 = 0 := by
  have h1 : (x &&& 0xfffffffc) % 2 ^ 2 = (x &&& 0xfffffffc) &&& (2 ^ 2 - 1) :=
    (Nat.and_pow_two_sub_one_eq_mod _ 2).symm
  norm_num at h1
  rw [h1, Nat.land_assoc, (by decide : (0xfffffffc : Nat) &&& 3 = 0), Nat.and_zero]

theorem align2 (x : Nat) : (x &&& 0xfffffffe) % 2 = 0 := by
  rw [← Nat.and_one_is_mod, Nat.land_assoc, (by decide : (0xfffffffe : Nat) &&& 1 = 0),
    Nat.and_zero]

theorem w32_mod4 (x : Nat) : w32 x % 4 = x % 4 := Nat.mod_mod_of_dvd _ (by norm_num)

theorem wsub_mod4 (a b : Nat) (ha : a % 4 = 0) (hb : b % 4 = 0) : wsub a b % 4 = 0 := by
  unfold wsub
  omega

theorem xferLoop_aligned (mem : Mem) (l addr : Nat) (h4 : addr % 4 = 0) :
    ∀ count i rem s ev, ev ∈ (xferLoop mem l addr i count rem s).2 → evAligned ev = true := by
  intro count
  induction count with
  | zero => intro i rem s ev hev; simp [xferLoop] at hev
  | succ n ih =>
    intro i rem s ev hev
    have hidx : w32 (addr + i * 4) % 4 = 0 := by unfold w32; omega
    by_cases hl : l = 0
    · subst hl
      simp only [xferLoop, if_pos rfl] at hev
      rcases List.mem_cons.mp hev with h | h
      · subst h; simp [evAligned, hidx]
      · exact ih (i + 1) _ _ ev h
    · simp only [xferLoop, if_neg hl] at hev
      rcases List.mem_cons.mp hev with h | h
      · subst h; simp [evAligned, hidx]
      · exact ih (i + 1) _ _ ev h

theorem runInst_aligned (mem : Mem) (ty : Instruction) (inst pc c v cpsr : Nat) (s : ThumbState)
    (h1 : ty ≠ Instruction.SpXfer) (h2 : ty ≠ Instruction.BlockXfer)
    (out : ThumbState × List MemEvent × Bool)
    (hout : runInst mem ty inst pc c v cpsr s = some out) :
    ∀ ev ∈ out.2.1, evAligned ev = true := by
  cases ty
  case SpXfer => exact absurd rfl h1
  case BlockXfer => exact absurd rfl h2
  case PushPop =>
    simp only [runInst] at hout
    simp only [Option.some.injEq] at hout
    subst hout
    intro ev hev
    simp only at hev
    refine xferLoop_aligned mem _ _ ?_ _ _ _ _ ev hev
    by_cases hl : bit inst 11 = 0
    · simp only [hl]
      norm_num
      exact wsub_mod4 _ _ (align4 _) (by omega)
    · simp only [hl]
      norm_num
      exact align4 _
  all_goals
    simp only [runInst] at hout
  all_goals
    repeat' split at hout
  all_goals
    cases hout
  all_goals
    intro ev hev
  all_goals
    try (simp only [List.not_mem_nil] at hev)
  all_goals
    simp only [List.mem_singleton] at hev
  all_goals
    subst hev
  all_goals
    simp [evAligned, pcLoadAddr, align4, align2]

/-- C5 amended: for every Thumb instruction whose form is not SpXfer and not
BlockXfer, every 32-bit access address passed to the memory interface is
word-aligned (pre-masked with & ~3) and every 16-bit access address is
halfword-aligned (pre-masked with & ~1).  The SpXfer and BlockXfer arms are
excluded because they pass the unmasked base+offset address (see the
counterexample). -/
theorem accesses_aligned (mem : Mem) (s : ThumbState)
    (h1 : Instruction.decode (fetchWord mem s) ≠ Instruction.SpXfer)
    (h2 : Instruction.decode (fetchWord mem s) ≠ Instruction.BlockXfer) :
    ∀ ev ∈ thumbEvents mem s, evAligned ev = true := by
  intro ev hev
  unfold thumbEvents at hev
  cases hex : execute_thumb mem s with
  | none => rw [hex] at hev; simp at hev
  | some out =>
    rw [hex] at hev
    simp only [Option.elim] at hev
    unfold execute_thumb at hex
    cases hrun : runInst mem (Instruction.decode (fetchWord mem s)) (fetchWord mem s) (s.r 15)
        (bit s.cp 29) (bit s.cp 28) s.cp (postInc s) with
    | none => rw [hrun] at hex; cases hex
    | some o2 =>
      rw [hrun] at hex
      simp only [Option.some.injEq] at hex
      subst hex
      rcases List.mem_cons.mp hev with h | h
      · subst h
        simp only [evAligned, fetchAddr]
        simp [align2]
      · exact runInst_aligned mem _ _ _ _ _ _ _ h1 h2 o2 hrun ev h

/-- C5 counterexample: an SpXfer store executed with SP = 1 hands the memory
interface the unaligned address 1, refuting the claim that all 32-bit access
addresses are pre-masked, including for SpXfer. -/
theorem unaligned_spxfer_cex :
    thumbEvents (memConst 0x9000) (spState 1) = [MemEvent.load16 0, MemEvent.set32 1 0] ∧
    evAligned (MemEvent.set32 1 0) = false ∧ (1 : Nat) % 4 ≠ 0 := by decide

theorem accesses_aligned_witness :
    evAligned (MemEvent.load16 0) = true :=
  accesses_aligned (memConst 0x7078) s0 (by decide) (by decide)
    (MemEvent.load16 0) (by decide)

set_option maxRecDepth 100000 in
theorem bits_step : ∀ a, a < 256 → ∀ b, b < 4 → a + b * 16384 ≠ 0 →
    (bitsAsc (a + b * 16384) =
      trailing_zeros (a + b * 16384) ::
        bitsAsc (a + b * 16384 - (1 <<< trailing_zeros (a + b * 16384))) ∧
     (a + b * 16384 - (1 <<< trailing_zeros (a + b * 16384))) % 16384 < 256 ∧
     a + b * 16384 - (1 <<< trailing_zeros (a + b * 16384)) < 65536) := by decide

set_option maxRecDepth 100000 in
theorem bits_init : ∀ m, m < 256 → ∀ r, r < 2 → ∀ l, l < 2 →
    (count_ones m + r =
      (bitsAsc (m ||| (if r = 1 then 1 <<< (if l = 0 then 14 else 15) else 0))).length ∧
     (m ||| (if r = 1 then 1 <<< (if l = 0 then 14 else 15) else 0)) % 16384 < 256 ∧
     (m ||| (if r = 1 then 1 <<< (if l = 0 then 14 else 15) else 0)) < 65536 ∧
     ¬ 13 ∈ bitsAsc (m ||| (if r = 1 then 1 <<< (if l = 0 then 14 else 15) else 0))) := by
  decide

theorem bitsAsc_pairwise (n : Nat) : (bitsAsc n).Pairwise (· < ·) :=
  (List.pairwise_lt_range 16).filter _

theorem xferLoop_push (mem : Mem) (addr : Nat) :
    ∀ count rem i s, rem % 16384 < 256 → rem < 65536 → (bitsAsc rem).length = count →
      xferLoop mem 0 addr i count rem s = (s, storeEvs s addr i (bitsAsc rem)) := by
  intro count
  induction count with
  | zero =>
    intro rem i s h1 h2 h3
    rw [List.eq_nil_of_length_eq_zero h3]
    rfl
  | succ n ih =>
    intro rem i s h1 h2 h3
    have hne : rem ≠ 0 := by
      intro h0
      rw [h0, (by decide : bitsAsc 0 = [])] at h3
      simp at h3
    have hab : rem = rem % 16384 + (rem / 16384) * 16384 := by omega
    have hb4 : rem / 16384 < 4 := by omega
    obtain ⟨hcons, hinv1, hinv2⟩ :=
      bits_step (rem % 16384) h1 (rem / 16384) hb4 (by omega)
    rw [← hab] at hcons hinv1 hinv2
    have hlen : (bitsAsc (rem - (1 <<< trailing_zeros rem))).length = n := by
      rw [hcons] at h3
      simpa using h3
    simp only [xferLoop, if_pos rfl]
    rw [ih _ (i + 1) s hinv1 hinv2 hlen, hcons]
    rfl

theorem xferLoop_pop (mem : Mem) (addr : Nat) :
    ∀ count rem i s, rem % 16384 < 256 → rem < 65536 → (bitsAsc rem).length = count →
      xferLoop mem 1 addr i count rem s =
        (applyLoads mem addr i (bitsAsc rem) s, loadEvs addr i (bitsAsc rem)) := by
  intro count
  induction count with
  | zero =>
    intro rem i s h1 h2 h3
    rw [List.eq_nil_of_length_eq_zero h3]
    rfl
  | succ n ih =>
    intro rem i s h1 h2 h3
    have hne : rem ≠ 0 := by
      intro h0
      rw [h0, (by decide : bitsAsc 0 = [])] at h3
      simp at h3
    have hab : rem = rem % 16384 + (rem / 16384) * 16384 := by omega
    have hb4 : rem / 16384 < 4 := by omega
    obtain ⟨hcons, hinv1, hinv2⟩ :=
      bits_step (rem % 16384) h1 (rem / 16384) hb4 (by omega)
    rw [← hab] at hcons hinv1 hinv2
    have hlen : (bitsAsc (rem - (1 <<< trailing_zeros rem))).length = n := by
      rw [hcons] at h3
      simpa using h3
    simp only [xferLoop, (by decide : (1 : Nat) = 0 ↔ False), if_false]
    rw [ih _ (i + 1) _ hinv1 hinv2 hlen, hcons]
    rfl

/-- C6 amended: for every PushPop instruction, the named registers (plus LR
on push / PC on pop when the R bit is set) are transferred in ascending
register-index order (bitsAsc is sorted) at consecutive word addresses
(storeEvs/loadEvs place transfer k at start + 4k), SP itself is never in the
transfer list and is written exactly once, to the post-address obtained by
subtracting (push) or adding (pop) (popcount(list) + R-bit) x 4 from/to the
word-aligned pre-instruction SP (SP & ~3). -/
theorem pushpop_transfer (mem : Mem) (s : ThumbState)
    (hd : Instruction.decode (fetchWord mem s) = Instruction.PushPop) :
    execute_thumb mem s = some
      ((pushPopSpec mem (fetchWord mem s) (postInc s)).1,
       MemEvent.load16 (fetchAddr s) :: (pushPopSpec mem (fetchWord mem s) (postInc s)).2,
       true) ∧
    (bitsAsc (pushPopRem (fetchWord mem s))).Pairwise (· < ·) ∧
    (bitsAsc (pushPopRem (fetchWord mem s))).length =
      count_ones (extract (fetchWord mem s) 0 8) + bit (fetchWord mem s) 8 ∧
    ¬ 13 ∈ bitsAsc (pushPopRem (fetchWord mem s)) := by
  have hm : extract (fetchWord mem s) 0 8 < 256 := by
    have := extract_lt (fetchWord mem s) 0 8
    norm_num at this
    exact this
  have hr2 : bit (fetchWord mem s) 8 < 2 := Nat.mod_lt _ (by norm_num)
  have hl2 : bit (fetchWord mem s) 11 < 2 := Nat.mod_lt _ (by norm_num)
  obtain ⟨hlen, hp1, hp2, h13⟩ :=
    bits_init (extract (fetchWord mem s) 0 8) hm (bit (fetchWord mem s) 8) hr2
      (bit (fetchWord mem s) 11) hl2
  refine ⟨?_, bitsAsc_pairwise _, ?_, ?_⟩
  · unfold execute_thumb
    rw [hd]
    simp only [runInst]
    by_cases hl : bit (fetchWord mem s) 11 = 0
    · rw [hl]
      simp only [reduceIte]
      rw [xferLoop_push mem _ _ _ 0 (postInc s) ?_ ?_ ?_]
      · simp [pushPopSpec, pushPopRem, hl]
      · simpa [pushPopRem, hl] using hp1
      · simpa [pushPopRem, hl] using hp2
      · simp only [pushPopRem, hl, reduceIte] at hlen
        omega
    · have hl1 : bit (fetchWord mem s) 11 = 1 := by omega
      simp only [hl1, reduceIte]
      rw [xferLoop_pop mem _ _ _ 0 (postInc s) ?_ ?_ ?_]
      · simp [pushPopSpec, pushPopRem, hl1]
      · simpa [pushPopRem, hl1] using hp1
      · simpa [pushPopRem, hl1] using hp2
      · simp only [pushPopRem, hl1, reduceIte] at hlen
        omega
  · unfold pushPopRem
    omega
  · exact h13

/-- C6 counterexample: a push of one register executed with SP = 2 leaves
SP = (2 & ~3) - 4 = 0xfffffffc, not the claimed pre-instruction SP minus the
stack delta (2 - 4 = 0xfffffffe): the post-address is computed from the
word-aligned SP & ~3, not from the raw pre-instruction SP. -/
theorem pushpop_sp_cex :
    (execute_thumb (memConst 0xb401) (spState 2)).map (fun o => o.1.r 13) = some 0xfffffffc ∧
    wsub ((spState 2).r 13) ((count_ones (extract 0xb401 0 8) + bit 0xb401 8) * 4) = 0xfffffffe ∧
    (0xfffffffc : Nat) ≠ 0xfffffffe := by decide

theorem pushpop_transfer_witness :
    execute_thumb (memConst 0xb401) (spState 2) = some
      ((pushPopSpec (memConst 0xb401) (fetchWord (memConst 0xb401) (spState 2))
          (postInc (spState 2))).1,
       MemEvent.load16 (fetchAddr (spState 2)) ::
         (pushPopSpec (memConst 0xb401) (fetchWord (memConst 0xb401) (spState 2))
           (postInc (spState 2))).2,
       true) ∧
    (bitsAsc (pushPopRem (fetchWord (memConst 0xb401) (spState 2)))).Pairwise (· < ·) ∧
    (bitsAsc (pushPopRem (fetchWord (memConst 0xb401) (spState 2)))).length =
      count_ones (extract (fetchWord (memConst 0xb401) (spState 2)) 0 8) +
        bit (fetchWord (memConst 0xb401) (spState 2)) 8 ∧
    ¬ 13 ∈ bitsAsc (pushPopRem (fetchWord (memConst 0xb401) (spState 2))) :=
  pushpop_transfer (memConst 0xb401) (spState 2) (by decide)
